import Mathlib

/-!
Verification development for the upload admission-control and file-integrity
pipeline of the task-management backend.

The definitions below are a shallow embedding of:
  * `app/services/file_validation.py` (`FileValidationService`), and
  * `app/services/file_storage.py` (`FileStorageService`),
plus the policy tables of `app/config/security.py`.

Modelling conventions:
  * byte strings are `List Nat` (each entry the byte value, 0..255);
  * Python `float` timestamps (`time.time()`) are rationals `ℚ`;
  * fallible OS calls (`open`/`read`, `os.path.getsize`) are `Except String`
    fields of an abstract file, so that the two calls can fail independently
    (as they can on a real file system);
  * the on-disk store is an association list `List (String × Nat)` mapping a
    path to the byte size of the file stored there.
-/

/-! ## Generic byte/string helpers (Python `in`, `startswith`, `lower`) -/

/-- Python `a.startswith(b)` on sequences: `b` is a leading run of `a`. -/
def seqStarts [BEq α] : List α → List α → Bool
  | _, [] => true
  | [], _ :: _ => false
  | a :: as, b :: bs => a == b && seqStarts as bs

/-- Python `needle in hay` on sequences: contiguous-substring containment. -/
def seqHas [BEq α] (needle : List α) : List α → Bool
  | [] => needle.isEmpty
  | a :: as => seqStarts (a :: as) needle || seqHas needle as

/-- Bytes of an ASCII string literal (used to spell byte-string constants). -/
def bytesOf (s : String) : List Nat := s.toList.map Char.toNat

/-- Python `bytes.lower()` on a single byte: ASCII A-Z maps to a-z. -/
def byteLower (b : Nat) : Nat := if 65 ≤ b ∧ b ≤ 90 then b + 32 else b

/-- Python `str.lower()` on a single character (ASCII range; the strings this
pipeline lowercases are ASCII). -/
def charLower (c : Char) : Char :=
  if 65 ≤ c.toNat ∧ c.toNat ≤ 90 then Char.ofNat (c.toNat + 32) else c

/-- Python `str.lower()`. -/
def strLower (s : String) : String := String.mk (s.toList.map charLower)

/-- Python `needle in hay` on strings. -/
def strHas (hay needle : String) : Bool := seqHas needle.toList hay.toList

/-- Python `s.startswith(pre)` on strings. -/
def strStarts (s pre : String) : Bool := seqStarts s.toList pre.toList

/-- Boolean success test for `Except` (a fallible Python call that did not
raise). -/
def exOk : Except ε α → Bool
  | .ok _ => true
  | .error _ => false

/-! ## Abstract file (the two OS reads `FileValidationService` performs) -/

/-- A file as seen by `FileValidationService`: `os.path.getsize` and
`open(...,"rb").read()` each either succeed or raise (independently). -/
structure FsFile where
  sizeResult : Except String Nat
  contentResult : Except String (List Nat)

/-! ## FileValidationService (`app/services/file_validation.py`) -/

/-- `self.max_sizes` of `FileValidationService.__init__`. -/
def max_sizes_image : Nat := 5 * 1024 * 1024
def max_sizes_document : Nat := 10 * 1024 * 1024
def max_sizes_video : Nat := 50 * 1024 * 1024
def max_sizes_audio : Nat := 20 * 1024 * 1024
def max_sizes_archive : Nat := 25 * 1024 * 1024
def max_sizes_default : Nat := 10 * 1024 * 1024

/-- The `dangerous_executables` table of `validate_file_signature`
(signature bytes, description), in source (insertion) order. -/
def dangerous_executables : List (List Nat × String) :=
  [([0x4d, 0x5a], "PE executable"),
   ([0x7f, 0x45, 0x4c, 0x46], "ELF executable"),
   ([0xfe, 0xed, 0xfa], "Mach-O executable"),
   ([0xce, 0xfa, 0xed, 0xfe], "Mach-O executable")]

/-- `FileValidationService.validate_file_signature`: read the first 1024
bytes; reject when the header starts with a dangerous executable signature;
an exception while reading fails the check with an error message. -/
def validate_file_signature (f : FsFile) : Bool × String :=
  match f.contentResult with
  | .error e => (false, "Error reading file: " ++ e)
  | .ok content =>
    let header := content.take 1024
    match dangerous_executables.find? (fun sd => seqStarts header sd.1) with
    | some sd => (false, "Executable file detected: " ++ sd.2)
    | none => (true, "")

/-- The archive MIME list of `validate_file_size`. -/
def archive_mime_types : List String :=
  ["application/zip", "application/x-rar-compressed", "application/x-7z-compressed"]

/-- The document-marker substrings of `validate_file_size`. -/
def doc_type_markers : List String := ["pdf", "document", "spreadsheet", "presentation"]

/-- The size-ceiling selection of `FileValidationService.validate_file_size`
(the if/elif chain on the MIME type). -/
def size_ceiling (mime_type : String) : Nat :=
  if strStarts mime_type "image/" then max_sizes_image
  else if strStarts mime_type "video/" then max_sizes_video
  else if strStarts mime_type "audio/" then max_sizes_audio
  else if archive_mime_types.contains mime_type then max_sizes_archive
  else if doc_type_markers.any (fun d => strHas mime_type d) then max_sizes_document
  else max_sizes_default

/-- `FileValidationService.validate_file_size`. The source formats the two
byte counts as floating-point MB figures inside the failure message; the
numbers are elided here (no claim depends on them). -/
def validate_file_size (f : FsFile) (mime_type : String) : Bool × String :=
  match f.sizeResult with
  | .error e => (false, "Error checking file size: " ++ e)
  | .ok file_size =>
    if file_size > size_ceiling mime_type then
      (false, "File size exceeds maximum allowed size for this file type")
    else (true, "")

/-- `self.allowed_mime_types` of `FileValidationService.__init__`. -/
def allowed_mime_types : List String :=
  ["application/pdf", "application/msword",
   "application/vnd.openxmlformats-officedocument.wordprocessingml.document",
   "text/plain", "text/rtf", "application/vnd.oasis.opendocument.text",
   "image/jpeg", "image/png", "image/gif", "image/bmp", "image/svg+xml",
   "image/webp",
   "application/vnd.ms-excel",
   "application/vnd.openxmlformats-officedocument.spreadsheetml.sheet",
   "text/csv", "application/vnd.oasis.opendocument.spreadsheet",
   "application/vnd.ms-powerpoint",
   "application/vnd.openxmlformats-officedocument.presentationml.presentation",
   "application/vnd.oasis.opendocument.presentation",
   "application/zip", "application/x-rar-compressed",
   "application/x-7z-compressed", "application/x-tar", "application/gzip",
   "text/x-python", "application/javascript", "text/html", "text/css",
   "application/json", "application/xml", "text/x-sql",
   "video/mp4", "video/avi", "video/quicktime", "video/x-ms-wmv",
   "audio/mpeg", "audio/wav", "audio/flac"]

/-- `FileValidationService.validate_mime_type`. `sniffed` is the result of
the optional `python-magic` capability: `none` models the documented
reduced-assurance fallback (`magic is None`, only the declared type is
checked); `some actual` models a successful `magic.from_file` sniff. The
quote characters of the source messages are elided. -/
def validate_mime_type (sniffed : Option String) (declared_mime_type : String) :
    Bool × String :=
  match sniffed with
  | none =>
    if declared_mime_type != "" && !(allowed_mime_types.contains declared_mime_type) then
      (false, "File type is not allowed: " ++ declared_mime_type)
    else (true, "")
  | some actual_mime_type =>
    if !(allowed_mime_types.contains actual_mime_type) then
      (false, "File type is not allowed: " ++ actual_mime_type)
    else if declared_mime_type != "" && actual_mime_type != declared_mime_type then
      (false, "MIME type mismatch: declared " ++ declared_mime_type ++
        " but actual " ++ actual_mime_type)
    else (true, "")

/-- The `suspicious_patterns` list of `scan_for_malware_patterns`, in source
order (duplicates included, as in the source). All entries are ASCII byte
strings, spelled here as string literals and compared bytewise. -/
def suspicious_patterns : List String :=
  ["eval(", "exec(", "system(", "shell_exec(", "passthru(", "popen(",
   "proc_open(", "file_get_contents(", "file_put_contents(", "fopen(",
   "fwrite(", "include(", "require(", "require_once(", "include_once(",
   "cmd.exe", "powershell", "bash", "sh", "/bin/sh", "/bin/bash", "wget",
   "curl", "nc ", "netcat", "telnet", "ssh", "scp", "ftp",
   "<iframe", "<script>", "<object>", "<embed>", "<applet>", "javascript:",
   "vbscript:", "onload=", "onerror=", "onclick=", "onmouseover=",
   "document.cookie", "document.write", "window.location", "XMLHttpRequest",
   "fetch(", "$.ajax", "$.post", "$.get",
   "union select", "drop table", "delete from", "insert into", "update set",
   "alter table", "create table", "exec(", "execute(", "sp_executesql",
   "../", "..\\", "/etc/passwd", "/etc/shadow", "C:\\Windows\\System32",
   "/proc/", "/sys/", "/dev/",
   "http://", "https://", "ftp://", "file://", "data:", "javascript:",
   "vbscript:",
   "base64_decode", "base64_encode", "str_rot13", "gzinflate",
   "gzuncompress", "gzdecode", "gzencode", "gzcompress", "gzdeflate",
   "gzfile", "readgzfile", "gzopen", "gzread", "gzwrite", "gzclose",
   "gzeof", "gzgetc", "gzgets", "gzgetss", "gzpassthru", "gzrewind",
   "gzseek", "gztell", "gzwrite",
   ".exe", ".bat", ".cmd", ".com", ".scr", ".pif", ".vbs", ".js", ".jar",
   ".class", ".php", ".asp", ".aspx", ".jsp", ".py", ".pl", ".sh", ".ps1"]

/-- CPython semantics of the expression `probability.bit_length()` in
`_calculate_entropy`: `probability = count / data_len` is a `float`, and the
`float` type has no `bit_length` method, so the attribute access raises
`AttributeError` for every value of `probability`. -/
def float_bit_length (_probability : ℚ) : Except String Nat :=
  .error "AttributeError: float object has no attribute bit_length"

/-- The byte-frequency table of `_calculate_entropy`
(`byte_counts[b] = data.count(b)` for `b` in 0..255). -/
def byte_counts (data : List Nat) : List Nat :=
  (List.range 256).map (fun b => data.count b)

/-- The accumulation loop of `_calculate_entropy`: for every positive count
it evaluates `probability.bit_length()` (which raises, see
`float_bit_length`) and would subtract `probability * (bit_length - 1)`. -/
def entropy_fold (data_len : Nat) : List Nat → ℚ → Except String ℚ
  | [], acc => .ok acc
  | c :: rest, acc =>
    if c > 0 then
      match float_bit_length ((c : ℚ) / (data_len : ℚ)) with
      | .error e => .error e
      | .ok bl =>
        entropy_fold data_len rest (acc - ((c : ℚ) / (data_len : ℚ)) * ((bl : ℚ) - 1))
    else entropy_fold data_len rest acc

/-- `FileValidationService._calculate_entropy`: returns 0 for empty data,
otherwise runs the accumulation loop (whose first positive count raises). -/
def calculate_entropy (data : List Nat) : Except String ℚ :=
  if data.isEmpty then .ok 0
  else entropy_fold data.length (byte_counts data) 0

/-- The body of `scan_for_malware_patterns` once the content has been read:
case-insensitive pattern search, then the entropy check, then the
minimum-size check. A raised exception is an `.error` value. -/
def scan_body (content : List Nat) : Except String (Bool × String) :=
  let content_lower := content.map byteLower
  match suspicious_patterns.find? (fun p => seqHas (bytesOf p) content_lower) with
  | some p => .ok (false, "Suspicious content detected: " ++ p)
  | none =>
    match calculate_entropy content with
    | .error e => .error e
    | .ok ent =>
      if ent > (7.5 : ℚ) then
        .ok (false, "High entropy content detected (potential obfuscation)")
      else if content.length < 10 then
        .ok (false, "File too small (potential payload)")
      else .ok (true, "")

/-- `FileValidationService.scan_for_malware_patterns`: any exception —
failing to read the file, or an error raised inside the scan body — is
caught and reported as safe (`return True, ""`, the fail-open policy). -/
def scan_for_malware_patterns (f : FsFile) : Bool × String :=
  match f.contentResult with
  | .error _ => (true, "")
  | .ok content =>
    match scan_body content with
    | .error _ => (true, "")
    | .ok r => r

/-- `FileValidationService.comprehensive_validation` (the relaxed,
internal-use profile): size check, then the signature check whose failure is
recorded only when the message contains the substring `executable`
(lower-cased). -/
def comprehensive_validation (f : FsFile) (declared_mime_type : String) :
    Bool × List String :=
  let sizeRes := validate_file_size f declared_mime_type
  let errors1 : List String :=
    if sizeRes.1 then [] else ["Size validation failed: " ++ sizeRes.2]
  let sigRes := validate_file_signature f
  let errors2 : List String :=
    if !sigRes.1 && strHas (strLower sigRes.2) "executable" then
      errors1 ++ ["Signature validation failed: " ++ sigRes.2]
    else errors1
  (errors2.isEmpty, errors2)

/-- Modelled from the spec: the strict caller-facing validation profile.
The source under `src/` contains only the relaxed orchestrator
(`comprehensive_validation`); the strict profile described in §4.4 of the
spec is missing, so it is modelled from the spec text: run the Stage B
dangerous-signature check unconditionally, Stage C (classifier MIME check),
Stage D (content scanner) and Stage E (size-by-category), aggregating every
failed stage reason without short-circuiting. Stage A (filename checks)
lives in the storage service and takes no part in the content claims. -/
def strict_validation (sniffed : Option String) (f : FsFile)
    (declared_mime_type : String) : Bool × List String :=
  let sigRes := validate_file_signature f
  let eB : List String := if sigRes.1 then [] else [sigRes.2]
  let mimeRes := validate_mime_type sniffed declared_mime_type
  let eC : List String := if mimeRes.1 then [] else [mimeRes.2]
  let scanRes := scan_for_malware_patterns f
  let eD : List String := if scanRes.1 then [] else [scanRes.2]
  let sizeRes := validate_file_size f declared_mime_type
  let eE : List String := if sizeRes.1 then [] else [sizeRes.2]
  let errors := eB ++ eC ++ eD ++ eE
  (errors.isEmpty, errors)

/-- Whether a byte content starts with one of the four dangerous
executable signatures of `validate_file_signature`. -/
def exec_header (content : List Nat) : Bool :=
  dangerous_executables.any (fun sd => seqStarts content sd.1)

/-- Reference definition, following the words of the spec (§4.3): Shannon
entropy of byte content, the sum over the 256 possible byte values of
`-p * log2 p` with `p` the observed frequency. Used to compare the source
entropy routine (`calculate_entropy`) against its specification. -/
noncomputable def spec_shannon_entropy (data : List Nat) : ℝ :=
  -(∑ b ∈ Finset.range 256,
      ((data.count b : ℝ) / (data.length : ℝ)) *
        Real.logb 2 ((data.count b : ℝ) / (data.length : ℝ)))

/-! ## FileStorageService (`app/services/file_storage.py`) -/

/-- `self.max_file_size` (10 MiB default). -/
def max_file_size : Nat := 10 * 1024 * 1024

/-- `self.allowed_extensions` of `FileStorageService.__init__`. -/
def allowed_extensions : List String :=
  [".pdf", ".doc", ".docx", ".txt", ".rtf", ".odt",
   ".jpg", ".jpeg", ".png", ".gif", ".bmp", ".svg", ".webp",
   ".xls", ".xlsx", ".csv", ".ods",
   ".ppt", ".pptx", ".odp",
   ".zip", ".rar", ".7z", ".tar", ".gz",
   ".py", ".js", ".html", ".css", ".json", ".xml", ".sql",
   ".mp4", ".avi", ".mov", ".wmv", ".mp3", ".wav", ".flac"]

/-- `SecurityConfig.FILE_UPLOAD` blocked extension table
(`app/config/security.py`). It is defined in the configuration but never
consulted by the storage/validation pipeline. -/
def blocked_extensions : List String :=
  [".exe", ".bat", ".cmd", ".com", ".scr", ".pif", ".vbs", ".js",
   ".jar", ".class", ".php", ".asp", ".aspx", ".jsp", ".py", ".pl",
   ".sh", ".ps1", ".dll", ".sys", ".drv", ".ocx", ".cpl", ".msi"]

/-- `self.rate_limits` of `FileStorageService.__init__`. -/
def uploads_per_minute : Nat := 10
def uploads_per_hour : Nat := 50
def uploads_per_day : Nat := 200
def total_size_per_hour : Nat := 100 * 1024 * 1024
def total_size_per_day : Nat := 500 * 1024 * 1024

/-- Per-user rate-limit record (one value of `self.user_uploads`): the
deque of upload timestamps, the deque of (timestamp, byte size) pairs, and
the `last_cleanup` timestamp. -/
structure UserData where
  uploads : List ℚ
  size_uploads : List (ℚ × Nat)
  last_cleanup : ℚ
deriving Repr, DecidableEq

/-- The `defaultdict` factory: a fresh user entry created at time `t`
(`last_cleanup = time.time()`). -/
def initUser (t : ℚ) : UserData := ⟨[], [], t⟩

/-- `FileStorageService._cleanup_old_uploads`: pop entries older than one
day from the front of each deque (a `while`/`popleft` loop, i.e.
`dropWhile`), then stamp `last_cleanup`. -/
def cleanup_old_uploads (now : ℚ) (u : UserData) : UserData :=
  { uploads := u.uploads.dropWhile (fun t => now - t > 86400),
    size_uploads := u.size_uploads.dropWhile (fun p => now - p.1 > 86400),
    last_cleanup := now }

/-- Number of recorded uploads strictly inside the trailing `win` seconds
(the `sum(1 for t in uploads if t > now - win)` expressions of
`_check_rate_limits`). -/
def windowCount (now win : ℚ) (u : UserData) : Nat :=
  (u.uploads.filter (fun t => t > now - win)).length

/-- Byte volume recorded strictly inside the trailing `win` seconds
(the `sum(size for t, size in size_uploads if t > now - win)` expressions
of `_check_rate_limits`). -/
def windowVolume (now win : ℚ) (u : UserData) : Nat :=
  ((u.size_uploads.filter (fun p => p.1 > now - win)).map Prod.snd).sum

/-- The five rejection messages of `_check_rate_limits` (the source builds
them with f-strings from `self.rate_limits`). -/
def minute_message : String :=
  "Upload rate limit exceeded: " ++ toString uploads_per_minute ++ " uploads per minute"
def hour_message : String :=
  "Upload rate limit exceeded: " ++ toString uploads_per_hour ++ " uploads per hour"
def day_message : String :=
  "Upload rate limit exceeded: " ++ toString uploads_per_day ++ " uploads per day"
def hour_size_message : String :=
  "Size limit exceeded: " ++ toString (total_size_per_hour / (1024 * 1024)) ++ "MB per hour"
def day_size_message : String :=
  "Size limit exceeded: " ++ toString (total_size_per_day / (1024 * 1024)) ++ "MB per day"

/-- `FileStorageService._check_rate_limits`: throttled lazy cleanup, then
the three count-window checks, then the two volume-window checks. Besides
the verdict it returns the (possibly cleaned) user record, since the
cleanup mutates `self.user_uploads[user_id]` in place. -/
def check_rate_limits (now : ℚ) (u0 : UserData) (file_size : Nat) :
    (Bool × String) × UserData :=
  let u := if now - u0.last_cleanup > 300 then cleanup_old_uploads now u0 else u0
  if windowCount now 60 u ≥ uploads_per_minute then ((false, minute_message), u)
  else if windowCount now 3600 u ≥ uploads_per_hour then ((false, hour_message), u)
  else if windowCount now 86400 u ≥ uploads_per_day then ((false, day_message), u)
  else if windowVolume now 3600 u + file_size > total_size_per_hour then
    ((false, hour_size_message), u)
  else if windowVolume now 86400 u + file_size > total_size_per_day then
    ((false, day_size_message), u)
  else ((true, ""), u)

/-- `FileStorageService._record_upload`: append the timestamp and the
(timestamp, size) pair to the user deques. -/
def record_upload (now : ℚ) (u : UserData) (file_size : Nat) : UserData :=
  { u with uploads := u.uploads ++ [now],
           size_uploads := u.size_uploads ++ [(now, file_size)] }

/-! ## Upload file, pathlib suffix, and the on-disk store -/

/-- Outcome of streaming the request body to disk
(`shutil.copyfileobj(file.file, buffer)`): either the full content of
`written` bytes is copied, or the copy raises after writing `written`
bytes, leaving a partial file of that size. -/
inductive StreamOutcome
  | ok (written : Nat)
  | err (written : Nat) (msg : String)
deriving Repr, DecidableEq

/-- The FastAPI `UploadFile` fields `save_file` consumes: the declared
filename, the declared size (`None` when unknown), and the content
stream. -/
structure UploadFile where
  filename : Option String
  size : Option Nat
  stream : StreamOutcome
deriving Repr, DecidableEq

/-- The basename of a path string (`pathlib` `.name`: the part after the
last `/`; backslash is not a separator on POSIX). -/
def pathBasename (s : String) : String :=
  String.mk ((s.toList.reverse.takeWhile (fun c => c ≠ '/')).reverse)

/-- `pathlib` `PurePath.suffix`: the final dot-component of the basename,
where the dot must be at an index `i` with `0 < i < len - 1`; otherwise the
empty string. -/
def pathSuffix (s : String) : String :=
  let name := (pathBasename s).toList
  let pos := (List.range name.length).filter (fun i => name.getD i ' ' = '.')
  match pos.getLast? with
  | some i => if 0 < i ∧ i < name.length - 1 then String.mk (name.drop i) else ""
  | none => ""

/-- The dangerous filename fragments of `FileStorageService.validate_file`. -/
def dangerous_name_fragments : List String :=
  ["..", "/", "\\", "<", ">", ":", "\x22", "|", "?", "*"]

/-- Python truthiness of `file.size` combined with the size comparison:
`hasattr(file, "size") and file.size and file.size > self.max_file_size`. -/
def declared_size_oversize (file : UploadFile) : Bool :=
  match file.size with
  | some n => n != 0 && n > max_file_size
  | none => false

/-- `FileStorageService.validate_file`. `mimeGuess` abstracts the Python
standard-library `mimetypes.guess_type` table (an environment input: a map
from filename to optionally-guessed MIME type). Messages are shortened
where the source interpolates values (no claim depends on them). -/
def validate_file (mimeGuess : String → Option String) (file : UploadFile) :
    Bool × String :=
  if declared_size_oversize file then
    (false, "File size exceeds maximum allowed size")
  else
    match file.filename with
    | none => (false, "File must have a filename")
    | some fname =>
      if fname = "" then (false, "File must have a filename")
      else
        let file_ext := strLower (pathSuffix fname)
        if !(allowed_extensions.contains file_ext) then
          (false, "File type is not allowed: " ++ file_ext)
        else if dangerous_name_fragments.any (fun p => strHas fname p) then
          (false, "Filename contains invalid characters")
        else
          match mimeGuess fname with
          | none => (false, "Unable to determine file type")
          | some _ => (true, "")

/-- `FileStorageService.generate_unique_filename`: a fresh UUID token
(supplied here as the oracle `uuidTok`) prefixed to the original suffix. -/
def generate_unique_filename (uuidTok : String) (original_filename : String) :
    String :=
  uuidTok ++ pathSuffix original_filename

/-- The on-disk store: an association list from path to stored byte size. -/
abbrev Disk := List (String × Nat)

/-- Whether a path exists on disk. -/
def diskHas (d : Disk) (p : String) : Bool := d.any (fun e => e.1 == p)

/-- `open(path, "wb")` + copy: create/overwrite the file at `p` with `n`
bytes. -/
def diskWrite (d : Disk) (p : String) (n : Nat) : Disk :=
  (p, n) :: d.filter (fun e => e.1 != p)

/-- `Path.unlink()`: remove the file at `p`. -/
def diskRemove (d : Disk) (p : String) : Disk :=
  d.filter (fun e => e.1 != p)

/-- The state `save_file` touches: the disk and the calling user's
rate-limit record. -/
structure StorageState where
  disk : Disk
  user : UserData

/-- The errors `save_file` raises: `HTTPException` with status 400
(validation / post-write size), 429 (rate limit) or 500 (unexpected
failure, e.g. a write error). -/
inductive SaveErr
  | badRequest (msg : String)
  | rateLimited (msg : String)
  | serverError (msg : String)
deriving Repr, DecidableEq

/-- The storage path `save_file` writes to:
`{upload_dir}/tasks/{task_id}/{unique_filename}`. -/
def save_path (task_id : Nat) (unique_filename : String) : String :=
  "uploads/tasks/" ++ toString task_id ++ "/" ++ unique_filename

/-- The candidate size `save_file` hands to the rate limiter
(`getattr(file, "size", 0) or 0`, replaced by `max_file_size` when the
declared size is unknown or zero). -/
def rate_limit_candidate_size (file : UploadFile) : Nat :=
  match file.size with
  | some n => if n = 0 then max_file_size else n
  | none => max_file_size

def save_file (mimeGuess : String → Option String) (uuidTok : String)
    (now : ℚ) (file : UploadFile) (task_id _user_id : Nat)
    (st : StorageState) : Except SaveErr (String × String × Nat) × StorageState :=
  let v := validate_file mimeGuess file
  if !v.1 then (.error (.badRequest v.2), st)
  else
    let chk := check_rate_limits now st.user (rate_limit_candidate_size file)
    let u1 := chk.2
    if !chk.1.1 then (.error (.rateLimited chk.1.2), { st with user := u1 })
    else
      let unique_filename :=
        generate_unique_filename uuidTok (file.filename.getD "")
      let file_path := save_path task_id unique_filename
      match file.stream with
      | .err written msg =>
        (.error (.serverError ("Error saving file: " ++ msg)),
         { disk := diskWrite st.disk file_path written, user := u1 })
      | .ok written =>
        let disk1 := diskWrite st.disk file_path written
        if written > max_file_size then
          (.error (.badRequest "File size exceeds maximum allowed size"),
           { disk := diskRemove disk1 file_path, user := u1 })
        else
          (.ok (file_path, unique_filename, written),
           { disk := disk1, user := record_upload now u1 written })

/-- `FileStorageService.delete_file`: remove the path if it exists and
report `true`; report `false` (without raising) when it does not. -/
def delete_file (file_path : String) (d : Disk) : Bool × Disk :=
  if diskHas d file_path then (true, diskRemove d file_path) else (false, d)

/-- A concrete `mimetypes.guess_type` environment used by the concrete
evaluations below (the entries agree with the CPython table for these
extensions). -/
def mimeGuessDemo (fname : String) : Option String :=
  if strLower (pathSuffix fname) = ".txt" then some "text/plain"
  else if strLower (pathSuffix fname) = ".py" then some "text/x-python"
  else if strLower (pathSuffix fname) = ".png" then some "image/png"
  else none

/-! ## Rate-limiter execution harnesses -/

/-- Run a sequence of check-then-record upload attempts of a common
candidate/actual size against one user record: each step performs
`_check_rate_limits` and, on success, `_record_upload`, exactly as
`save_file` sequences them. Returns the final record and, per attempt, the
verdict pair `_check_rate_limits` produced. -/
def run_uploads (size : Nat) : List ℚ → UserData → UserData × List (Bool × String)
  | [], u => (u, [])
  | t :: ts, u =>
    let chk := check_rate_limits t u size
    let u1 := if chk.1.1 then record_upload t chk.2 size else chk.2
    let rest := run_uploads size ts u1
    (rest.1, chk.1 :: rest.2)

/-- States of one user's rate-limit record reachable through the limiter
API: a fresh record; the passage of time; a failed (or merely performed)
check, which can clean the record; and an admitted upload — a check that
passed at time `t` with candidate size `c`, recorded at a later time `t'`
with an actual size `s ≤ c` (the hypothesis of claim C6). -/
inductive RLReach : ℚ → UserData → Prop
  | init (t : ℚ) : RLReach t (initUser t)
  | tick {t u} (t' : ℚ) : t ≤ t' → RLReach t u → RLReach t' u
  | checkOnly {t u} (c : Nat) : RLReach t u →
      RLReach t (check_rate_limits t u c).2
  | upload {t u} (c s : Nat) (t' : ℚ) : t ≤ t' → s ≤ c →
      (check_rate_limits t u c).1.1 = true →
      RLReach t u →
      RLReach t' (record_upload t' (check_rate_limits t u c).2 s)

/-! ## Helper lemmas -/

theorem natSum_le_of_sublist {l1 l2 : List Nat} (h : List.Sublist l1 l2) :
    l1.sum ≤ l2.sum := by
  induction h with
  | slnil => exact Nat.le_refl _
  | cons a _ ih => simp only [List.sum_cons]; omega
  | cons₂ a _ ih => simp only [List.sum_cons]; omega

theorem diskHas_diskRemove (d : Disk) (p : String) :
    diskHas (diskRemove d p) p = false := by
  induction d with
  | nil => rfl
  | cons e rest ih =>
    by_cases h : e.1 = p
    · simp only [diskRemove] at ih ⊢
      simp [h, ih]
    · simp only [diskRemove, diskHas] at ih ⊢
      simp [h, ih]

theorem filter_ne_of_not_has {d : Disk} {p : String} (h : diskHas d p = false) :
    d.filter (fun e => e.1 != p) = d := by
  refine List.filter_eq_self.mpr ?_
  intro e he
  have hx : ¬ ((e.1 == p) = true) := by
    intro hep
    have ht : diskHas d p = true := by
      unfold diskHas
      exact List.any_eq_true.mpr ⟨e, he, hep⟩
    rw [ht] at h
    exact absurd h (by simp)
  have hne : e.1 ≠ p := fun hep => hx (beq_iff_eq.mpr hep)
  simpa [bne_iff_ne] using hne

theorem diskRemove_diskWrite_fresh {d : Disk} {p : String} (h : diskHas d p = false)
    (n : Nat) : diskRemove (diskWrite d p n) p = d := by
  have hf : d.filter (fun e => e.1 != p) = d := filter_ne_of_not_has h
  simp [diskWrite, diskRemove, hf]

/-- C9: `delete_file` is idempotent — on a path that does not exist it
returns `false` with the disk unchanged (and does not raise), and a second
deletion of any path always returns `false`. -/
theorem c9_delete_file_idempotent (d : Disk) (p : String) :
    (diskHas d p = false → delete_file p d = (false, d)) ∧
    (delete_file p (delete_file p d).2).1 = false := by
  constructor
  · intro h; simp [delete_file, h]
  · by_cases h : diskHas d p
    · simp [delete_file, h, diskHas_diskRemove]
    · simp [delete_file, h]

theorem c9_delete_file_idempotent_witness :
    diskHas [("a", 1)] "b" = false ∧
    delete_file "b" [("a", 1)] = (false, [("a", 1)]) ∧
    (delete_file "a" (delete_file "a" [("a", 1)]).2).1 = false :=
  ⟨by decide, (c9_delete_file_idempotent [("a", 1)] "b").1 (by decide),
   (c9_delete_file_idempotent [("a", 1)] "a").2⟩

/-- C7: the content scanner fails open — a read error, or an exception
raised inside the scan body (such as the entropy routine's
`AttributeError`), makes `scan_for_malware_patterns` report safe with no
reason. -/
theorem c7_scan_errors_fail_open (sr : Except String Nat) (e : String)
    (content : List Nat) (h : exOk (scan_body content) = false) :
    scan_for_malware_patterns ⟨sr, .error e⟩ = (true, "") ∧
    scan_for_malware_patterns ⟨sr, .ok content⟩ = (true, "") := by
  refine ⟨rfl, ?_⟩
  unfold scan_for_malware_patterns
  cases hb : scan_body content with
  | error m => simp [hb]
  | ok r => rw [hb] at h; simp [exOk] at h

theorem c7_scan_errors_fail_open_witness :
    exOk (scan_body [65]) = false ∧
    scan_for_malware_patterns ⟨.ok 1, .error "unreadable"⟩ = (true, "") ∧
    scan_for_malware_patterns ⟨.ok 1, .ok [65]⟩ = (true, "") :=
  ⟨by rfl,
   (c7_scan_errors_fail_open (.ok 1) "unreadable" [65] (by rfl)).1,
   (c7_scan_errors_fail_open (.ok 1) "unreadable" [65] (by rfl)).2⟩

/-- C2 counterexample: a file whose size is readable (5 bytes) but whose
content read raises. The signature check fails with a read-error message,
yet `comprehensive_validation` accepts the file with an empty error list —
the failed signature check is dropped, and the outcome is not a
rejection. -/
theorem c2_sig_read_error_dropped_counterexample :
    (validate_file_signature ⟨.ok 5, .error "Permission denied"⟩).1 = false ∧
    comprehensive_validation ⟨.ok 5, .error "Permission denied"⟩ "text/plain"
      = (true, []) :=
  ⟨rfl, rfl⟩

theorem logb_two_inv256 : Real.logb 2 ((1 : ℝ) / 256) = -8 := by
  rw [one_div, Real.logb_inv]
  rw [show (256 : ℝ) = 2 ^ (8 : ℕ) by norm_num]
  rw [Real.logb_pow, Real.logb_self_eq_one (by norm_num)]
  norm_num

theorem count_range256 {b : ℕ} (hb : b < 256) : (List.range 256).count b = 1 :=
  List.count_eq_one_of_mem (List.nodup_range 256) (List.mem_range.mpr hb)

theorem spec_entropy_ramp : spec_shannon_entropy (List.range 256) = 8 := by
  have hterm : ∀ b ∈ Finset.range 256,
      (((List.range 256).count b : ℝ) / ((List.range 256).length : ℝ)) *
        Real.logb 2 (((List.range 256).count b : ℝ) / ((List.range 256).length : ℝ))
        = -(1 / 32 : ℝ) := by
    intro b hb
    rw [count_range256 (Finset.mem_range.mp hb), List.length_range]
    push_cast
    rw [logb_two_inv256]
    norm_num
  unfold spec_shannon_entropy
  rw [Finset.sum_congr rfl hterm, Finset.sum_const, Finset.card_range]
  norm_num

theorem spec_entropy_flat : spec_shannon_entropy (List.replicate 200 65) = 0 := by
  unfold spec_shannon_entropy
  rw [Finset.sum_eq_zero, neg_zero]
  intro b _
  rcases eq_or_ne b 65 with h | h
  · subst h
    rw [List.count_replicate_self, List.length_replicate]
    norm_num [Real.logb_one]
  · have hc : (List.replicate 200 65).count b = 0 := by
      rw [List.count_replicate]
      exact if_neg (by simpa using Ne.symm h)
    rw [hc]
    norm_num

set_option maxRecDepth 10000 in
/-- C1 (code bug): by the spec reference definition the 256-byte ramp
(every byte value once) has Shannon entropy 8 > 7.5 bits/byte and matches
no suspicious pattern, yet the aggressive scan reports it safe: the source
entropy routine evaluates `probability.bit_length()` on a `float`, raising
`AttributeError`, which the scanner's blanket `except` converts to the
fail-open verdict. The flat buffer (one repeated byte, reference entropy 0)
is likewise reported safe, but also only through the same swallowed
exception rather than through a working entropy comparison. -/
theorem c1_entropy_check_never_rejects :
    spec_shannon_entropy (List.range 256) = 8 ∧
    (7.5 : ℝ) < spec_shannon_entropy (List.range 256) ∧
    calculate_entropy (List.range 256) =
      .error "AttributeError: float object has no attribute bit_length" ∧
    scan_for_malware_patterns ⟨.ok 256, .ok (List.range 256)⟩ = (true, "") ∧
    spec_shannon_entropy (List.replicate 200 65) = 0 ∧
    calculate_entropy (List.replicate 200 65) =
      .error "AttributeError: float object has no attribute bit_length" ∧
    scan_for_malware_patterns ⟨.ok 200, .ok (List.replicate 200 65)⟩ = (true, "") := by
  refine ⟨spec_entropy_ramp, ?_, by rfl, by rfl, spec_entropy_flat, by rfl, by rfl⟩
  rw [spec_entropy_ramp]
  norm_num

theorem seqStarts_take {n : ℕ} (s l : List Nat) (h : s.length ≤ n) :
    seqStarts (l.take n) s = seqStarts l s := by
  induction s generalizing l n with
  | nil => cases l <;> cases n <;> rfl
  | cons b bs ih =>
    cases n with
    | zero => simp at h
    | succ m =>
      cases l with
      | nil => rfl
      | cons a as =>
        simp only [List.take_succ_cons, seqStarts]
        rw [ih as (by simpa using h)]

theorem exec_header_take (content : List Nat) :
    (dangerous_executables.any (fun sd => seqStarts (content.take 1024) sd.1))
      = exec_header content := by
  unfold exec_header dangerous_executables
  simp only [List.any_cons, List.any_nil]
  rw [seqStarts_take _ _ (by decide), seqStarts_take _ _ (by decide),
      seqStarts_take _ _ (by decide), seqStarts_take _ _ (by decide)]

theorem validate_sig_of_exec {f : FsFile} {content : List Nat}
    (hc : f.contentResult = .ok content) (hx : exec_header content = true) :
    ∃ sd, sd ∈ dangerous_executables ∧
      validate_file_signature f = (false, "Executable file detected: " ++ sd.2) := by
  have hx' : (dangerous_executables.any
      (fun sd => seqStarts (content.take 1024) sd.1)) = true := by
    rw [exec_header_take]; exact hx
  have hsome : (dangerous_executables.find?
      (fun sd => seqStarts (content.take 1024) sd.1)).isSome := by
    rw [List.find?_isSome]
    obtain ⟨x, hxm, hxp⟩ := List.any_eq_true.mp hx'
    exact ⟨x, hxm, hxp⟩
  obtain ⟨sd, hfind⟩ := Option.isSome_iff_exists.mp hsome
  refine ⟨sd, List.mem_of_find?_eq_some hfind, ?_⟩
  unfold validate_file_signature
  rw [hc]
  simp [hfind]

theorem sig_desc_has_executable {sd : List Nat × String}
    (h : sd ∈ dangerous_executables) :
    strHas (strLower ("Executable file detected: " ++ sd.2)) "executable" = true := by
  simp only [dangerous_executables, List.mem_cons, List.not_mem_nil, or_false] at h
  rcases h with rfl | rfl | rfl | rfl <;> rfl

theorem comprehensive_rejects_exec {f : FsFile} {content : List Nat} (mime : String)
    (hc : f.contentResult = .ok content) (hx : exec_header content = true) :
    (comprehensive_validation f mime).1 = false := by
  obtain ⟨sd, hmem, hsig⟩ := validate_sig_of_exec hc hx
  have hhas := sig_desc_has_executable hmem
  unfold comprehensive_validation
  rw [hsig]
  by_cases hs : (validate_file_size f mime).1 <;> simp [hs, hhas]

theorem strict_rejects_exec (sniffed : Option String) {f : FsFile}
    {content : List Nat} (mime : String)
    (hc : f.contentResult = .ok content) (hx : exec_header content = true) :
    (strict_validation sniffed f mime).1 = false := by
  obtain ⟨sd, hmem, hsig⟩ := validate_sig_of_exec hc hx
  unfold strict_validation
  rw [hsig]
  simp

/-- C4: a content buffer beginning with one of the native-executable header
signatures (PE `4d 5a`, ELF `7f 45 4c 46`, Mach-O `fe ed fa` / `ce fa ed
fe`) is rejected under the relaxed profile (`comprehensive_validation`) and
under the strict profile, for every declared MIME type and every sniffing
capability — the check cannot be skipped by profile selection. -/
theorem c4_exec_header_rejected_in_both_profiles (f : FsFile)
    (content : List Nat) (mime : String) (sniffed : Option String)
    (hc : f.contentResult = .ok content) (hx : exec_header content = true) :
    (comprehensive_validation f mime).1 = false ∧
    (strict_validation sniffed f mime).1 = false :=
  ⟨comprehensive_rejects_exec mime hc hx, strict_rejects_exec sniffed mime hc hx⟩

theorem c4_exec_header_rejected_in_both_profiles_witness :
    exec_header [77, 90] = true ∧
    (comprehensive_validation ⟨.ok 2, .ok [77, 90]⟩ "application/pdf").1 = false ∧
    (strict_validation none ⟨.ok 2, .ok [77, 90]⟩ "application/pdf").1 = false :=
  ⟨by rfl,
   (c4_exec_header_rejected_in_both_profiles ⟨.ok 2, .ok [77, 90]⟩ [77, 90]
      "application/pdf" none rfl (by rfl)).1,
   (c4_exec_header_rejected_in_both_profiles ⟨.ok 2, .ok [77, 90]⟩ [77, 90]
      "application/pdf" none rfl (by rfl)).2⟩

/-- C2 (amended): under the relaxed profile a signature-check failure is
fail-closed only when it is an actual executable detection: a detected
executable header always yields rejection, but when the signature check
fails because the content read raised (and the raised message does not
contain `executable`), the failure is dropped — the error list is exactly
whatever the size check contributed. -/
theorem c2_sig_check_fail_closed_only_for_detections (f : FsFile) (mime : String) :
    (∀ content, f.contentResult = .ok content → exec_header content = true →
      (comprehensive_validation f mime).1 = false) ∧
    (∀ e, f.contentResult = .error e →
      strHas (strLower ("Error reading file: " ++ e)) "executable" = false →
      (comprehensive_validation f mime).2 =
        (if (validate_file_size f mime).1 then []
         else ["Size validation failed: " ++ (validate_file_size f mime).2])) := by
  constructor
  · intro content hc hx
    exact comprehensive_rejects_exec mime hc hx
  · intro e hc hno
    have hsig : validate_file_signature f = (false, "Error reading file: " ++ e) := by
      unfold validate_file_signature
      rw [hc]
    unfold comprehensive_validation
    rw [hsig]
    simp [hno]

theorem c2_sig_check_fail_closed_only_for_detections_witness :
    (comprehensive_validation ⟨.ok 2, .ok [77, 90]⟩ "text/plain").1 = false ∧
    (comprehensive_validation ⟨.ok 5, .error "Permission denied"⟩ "text/plain").2
      = [] := by
  constructor
  · exact (c2_sig_check_fail_closed_only_for_detections ⟨.ok 2, .ok [77, 90]⟩
      "text/plain").1 [77, 90] rfl (by rfl)
  · have h := (c2_sig_check_fail_closed_only_for_detections
      ⟨.ok 5, .error "Permission denied"⟩ "text/plain").2 "Permission denied" rfl (by rfl)
    rw [h]
    rfl

theorem validate_ok_not_oversize {g : String → Option String} {file : UploadFile}
    (h : (validate_file g file).1 = true) : declared_size_oversize file = false := by
  cases hd : declared_size_oversize file
  · rfl
  · unfold validate_file at h
    rw [hd] at h
    simp at h

theorem check_fresh_eval (c : Nat) (hc : c ≤ total_size_per_hour)
    (hd : c ≤ total_size_per_day) :
    check_rate_limits 0 (initUser 0) c = ((true, ""), initUser 0) := by
  unfold check_rate_limits initUser windowCount windowVolume
  rw [if_neg (by norm_num : ¬ (0:ℚ) - 0 > 300)]
  simp only [List.filter_nil, List.length_nil, List.map_nil, List.sum_nil]
  rw [if_neg (by norm_num [uploads_per_minute])]
  rw [if_neg (by norm_num [uploads_per_hour])]
  rw [if_neg (by norm_num [uploads_per_day])]
  rw [if_neg (by omega : ¬ 0 + c > total_size_per_hour)]
  rw [if_neg (by omega : ¬ 0 + c > total_size_per_day)]

/-- C3 counterexample: a stream-copy error during `save_file` (valid
filename, fresh state, the copy raises after 5 bytes) surfaces a server
error while the partially written 5-byte file remains on disk — the
partial file is not deleted before the error is surfaced. -/
theorem c3_write_error_leaves_partial_file_counterexample :
    exOk (save_file mimeGuessDemo "u1" 0 ⟨some "a.txt", none, .err 5 "disk full"⟩
        1 1 ⟨[], initUser 0⟩).1 = false ∧
    (save_file mimeGuessDemo "u1" 0 ⟨some "a.txt", none, .err 5 "disk full"⟩
        1 1 ⟨[], initUser 0⟩).2.disk = [("uploads/tasks/1/u1.txt", 5)] := by
  have hchk := check_fresh_eval max_file_size
    (by norm_num [max_file_size, total_size_per_hour])
    (by norm_num [max_file_size, total_size_per_day])
  have hval : validate_file mimeGuessDemo ⟨some "a.txt", none, .err 5 "disk full"⟩
      = (true, "") := by decide
  constructor <;>
  · unfold save_file
    rw [show rate_limit_candidate_size ⟨some "a.txt", none, .err 5 "disk full"⟩
        = max_file_size from rfl]
    rw [hval]
    rw [hchk]
    rfl

/-- C3 (amended): the post-write size check does delete the just-written
file before surfacing its rejection, and an upload whose declared or
actual size exceeds `max_file_size` leaves the disk exactly as it was
(pre-write rejection, or write followed by unlink at a fresh path); a
stream-copy write error, however, is surfaced without deleting the partial
file (see the counterexample). -/
theorem c3_oversize_upload_leaves_no_file (g : String → Option String)
    (uuidTok : String) (now : ℚ) (file : UploadFile) (task_id user_id : Nat)
    (st : StorageState) (n : Nat) (hs : file.stream = .ok n)
    (hfresh : diskHas st.disk
        (save_path task_id (generate_unique_filename uuidTok
          (file.filename.getD ""))) = false)
    (hover : declared_size_oversize file = true ∨ n > max_file_size) :
    exOk (save_file g uuidTok now file task_id user_id st).1 = false ∧
    (save_file g uuidTok now file task_id user_id st).2.disk = st.disk := by
  unfold save_file
  cases hv : (validate_file g file).1 with
  | false => simp [hv, exOk]
  | true =>
    have hnod : declared_size_oversize file = false := validate_ok_not_oversize hv
    have hn : n > max_file_size := by
      rcases hover with h | h
      · rw [hnod] at h; cases h
      · exact h
    simp only [hv, Bool.not_true, Bool.false_eq_true, if_false]
    cases hr : (check_rate_limits now st.user (rate_limit_candidate_size file)).1.1 with
    | false => simp [hr, exOk]
    | true =>
      simp only [hr, Bool.not_true, Bool.false_eq_true, if_false, hs]
      rw [if_pos hn]
      exact ⟨rfl, diskRemove_diskWrite_fresh hfresh n⟩

theorem c3_oversize_upload_leaves_no_file_witness :
    declared_size_oversize ⟨some "big.txt", some 10485761, .ok 5⟩ = true ∧
    exOk (save_file mimeGuessDemo "u2" 0 ⟨some "big.txt", some 10485761, .ok 5⟩
        1 1 ⟨[], initUser 0⟩).1 = false ∧
    (save_file mimeGuessDemo "u2" 0 ⟨some "big.txt", some 10485761, .ok 5⟩
        1 1 ⟨[], initUser 0⟩).2.disk = [] :=
  ⟨by rfl,
   (c3_oversize_upload_leaves_no_file mimeGuessDemo "u2" 0
      ⟨some "big.txt", some 10485761, .ok 5⟩ 1 1 ⟨[], initUser 0⟩ 5 rfl (by rfl)
      (Or.inl (by rfl))).1,
   (c3_oversize_upload_leaves_no_file mimeGuessDemo "u2" 0
      ⟨some "big.txt", some 10485761, .ok 5⟩ 1 1 ⟨[], initUser 0⟩ 5 rfl (by rfl)
      (Or.inl (by rfl))).2⟩

theorem validate_file_false_of_ext {g : String → Option String}
    {file : UploadFile} {fname : String} (hf : file.filename = some fname)
    (hext : allowed_extensions.contains (strLower (pathSuffix fname)) = false) :
    (validate_file g file).1 = false := by
  unfold validate_file
  cases hd : declared_size_oversize file with
  | true => simp [hd]
  | false =>
    rw [hf]
    by_cases hfe : fname = ""
    · simp [hd, hfe]
    · have hmem : strLower (pathSuffix fname) ∉ allowed_extensions := by
        simpa using hext
      simp [hd, hfe, hmem]

/-- C8 counterexample: `.py` is listed in the blocked-extensions table of
`SecurityConfig`, yet `save_file` accepts `a.py` (its extension is also in
the storage allow-list, and the blocked table is never consulted by the
save path) and writes the file to disk. -/
theorem c8_blocked_extension_accepted_counterexample :
    blocked_extensions.contains ".py" = true ∧
    exOk (save_file mimeGuessDemo "u1" 0 ⟨some "a.py", none, .ok 100⟩ 1 1
        ⟨[], initUser 0⟩).1 = true ∧
    (save_file mimeGuessDemo "u1" 0 ⟨some "a.py", none, .ok 100⟩ 1 1
        ⟨[], initUser 0⟩).2.disk = [("uploads/tasks/1/u1.py", 100)] := by
  have hchk := check_fresh_eval max_file_size
    (by norm_num [max_file_size, total_size_per_hour])
    (by norm_num [max_file_size, total_size_per_day])
  have hval : validate_file mimeGuessDemo ⟨some "a.py", none, .ok 100⟩
      = (true, "") := by decide
  refine ⟨by decide, ?_, ?_⟩ <;>
  · unfold save_file
    rw [show rate_limit_candidate_size ⟨some "a.py", none, .ok 100⟩
        = max_file_size from rfl]
    rw [hval]
    rw [hchk]
    rfl

/-- C8 (amended): an upload whose filename extension is not in the storage
allow-list is rejected before any write — the whole storage state (disk
and rate-limit record) is returned unchanged, regardless of content. The
blocked-extensions table, however, lives only in `SecurityConfig` and is
not consulted by the save path, so a blocked extension that is also in the
allow-list (`.py`, `.js`) is accepted (see the counterexample). -/
theorem c8_unlisted_extension_rejected_pre_write (g : String → Option String)
    (uuidTok : String) (now : ℚ) (file : UploadFile) (task_id user_id : Nat)
    (st : StorageState) (fname : String) (hf : file.filename = some fname)
    (hext : allowed_extensions.contains (strLower (pathSuffix fname)) = false) :
    exOk (save_file g uuidTok now file task_id user_id st).1 = false ∧
    (save_file g uuidTok now file task_id user_id st).2 = st := by
  have hv : (validate_file g file).1 = false := validate_file_false_of_ext hf hext
  simp only [save_file]
  rw [hv]
  exact ⟨rfl, rfl⟩

theorem c8_unlisted_extension_rejected_pre_write_witness :
    allowed_extensions.contains (strLower (pathSuffix "a.exe")) = false ∧
    exOk (save_file mimeGuessDemo "u1" 0 ⟨some "a.exe", none, .ok 3⟩ 1 1
        ⟨[], initUser 0⟩).1 = false ∧
    (save_file mimeGuessDemo "u1" 0 ⟨some "a.exe", none, .ok 3⟩ 1 1
        ⟨[], initUser 0⟩).2 = ⟨[], initUser 0⟩ :=
  ⟨by decide,
   (c8_unlisted_extension_rejected_pre_write mimeGuessDemo "u1" 0
      ⟨some "a.exe", none, .ok 3⟩ 1 1 ⟨[], initUser 0⟩ "a.exe" rfl (by decide)).1,
   (c8_unlisted_extension_rejected_pre_write mimeGuessDemo "u1" 0
      ⟨some "a.exe", none, .ok 3⟩ 1 1 ⟨[], initUser 0⟩ "a.exe" rfl (by decide)).2⟩

theorem check_state_eq (now : ℚ) (u : UserData) (c : Nat) :
    (check_rate_limits now u c).2
      = if now - u.last_cleanup > 300 then cleanup_old_uploads now u else u := by
  simp only [check_rate_limits]
  split_ifs <;> rfl

theorem check_state_suffix (now : ℚ) (u : UserData) (c : Nat) :
    ((check_rate_limits now u c).2.uploads <:+ u.uploads) ∧
    ((check_rate_limits now u c).2.size_uploads <:+ u.size_uploads) := by
  rw [check_state_eq]
  split_ifs
  · exact ⟨List.dropWhile_suffix _, List.dropWhile_suffix _⟩
  · exact ⟨List.suffix_rfl, List.suffix_rfl⟩


/-- C10: a `save_file` call that fails — for any reason — records no
upload: the user's upload-timestamp sequence and byte-volume sequence in
the final state are suffixes of the initial ones (the lazy cleanup may
drop old entries, but nothing is ever added on a failure path), so failed
uploads consume no quota. -/
theorem c10_failed_save_records_nothing (g : String → Option String)
    (uuidTok : String) (now : ℚ) (file : UploadFile) (task_id user_id : Nat)
    (st : StorageState)
    (h : exOk (save_file g uuidTok now file task_id user_id st).1 = false) :
    ((save_file g uuidTok now file task_id user_id st).2.user.uploads
        <:+ st.user.uploads) ∧
    ((save_file g uuidTok now file task_id user_id st).2.user.size_uploads
        <:+ st.user.size_uploads) := by
  have hsuf := check_state_suffix now st.user (rate_limit_candidate_size file)
  simp only [save_file] at h ⊢
  cases hv : (validate_file g file).1 with
  | false =>
    refine ⟨?_, ?_⟩ <;> simp [List.suffix_rfl]
  | true =>
    rw [hv] at h
    simp only [Bool.not_true, Bool.false_eq_true, if_false] at h ⊢
    cases hr : (check_rate_limits now st.user (rate_limit_candidate_size file)).1.1 with
    | false =>
      refine ⟨?_, ?_⟩ <;> simp [hsuf.1, hsuf.2]
    | true =>
      rw [hr] at h
      simp only [Bool.not_true, Bool.false_eq_true, if_false] at h ⊢
      cases hstream : file.stream with
      | err w m =>
        refine ⟨?_, ?_⟩ <;> simp [hsuf.1, hsuf.2]
      | ok w =>
        rw [hstream] at h
        dsimp only at h
        by_cases hw : w > max_file_size
        · refine ⟨?_, ?_⟩ <;> simp [hw, hsuf.1, hsuf.2]
        · rw [if_neg hw] at h
          simp [exOk] at h

theorem c10_failed_save_records_nothing_witness :
    exOk (save_file mimeGuessDemo "u1" 7 ⟨none, none, .ok 3⟩ 1 1
        ⟨[], ⟨[5], [(5, 7)], 0⟩⟩).1 = false ∧
    ((save_file mimeGuessDemo "u1" 7 ⟨none, none, .ok 3⟩ 1 1
        ⟨[], ⟨[5], [(5, 7)], 0⟩⟩).2.user.uploads <:+ [5]) ∧
    ((save_file mimeGuessDemo "u1" 7 ⟨none, none, .ok 3⟩ 1 1
        ⟨[], ⟨[5], [(5, 7)], 0⟩⟩).2.user.size_uploads <:+ [(5, 7)]) :=
  ⟨by decide,
   (c10_failed_save_records_nothing mimeGuessDemo "u1" 7 ⟨none, none, .ok 3⟩ 1 1
      ⟨[], ⟨[5], [(5, 7)], 0⟩⟩ (by decide)).1,
   (c10_failed_save_records_nothing mimeGuessDemo "u1" 7 ⟨none, none, .ok 3⟩ 1 1
      ⟨[], ⟨[5], [(5, 7)], 0⟩⟩ (by decide)).2⟩

theorem windowVolume_mono {t t' : ℚ} (w : ℚ) (u : UserData) (h : t ≤ t') :
    windowVolume t' w u ≤ windowVolume t w u := by
  unfold windowVolume
  apply natSum_le_of_sublist
  apply List.Sublist.map
  apply List.monotone_filter_right
  intro a ha
  simp only [decide_eq_true_eq] at ha ⊢
  linarith

theorem windowVolume_cleanup_le (t w t'' : ℚ) (u : UserData) :
    windowVolume t w (cleanup_old_uploads t'' u) ≤ windowVolume t w u := by
  unfold windowVolume cleanup_old_uploads
  apply natSum_le_of_sublist
  apply List.Sublist.map
  apply List.Sublist.filter
  exact (List.dropWhile_suffix _).sublist

theorem windowVolume_check_state_le (now : ℚ) (u : UserData) (c : Nat)
    (t w : ℚ) :
    windowVolume t w ((check_rate_limits now u c).2) ≤ windowVolume t w u := by
  rw [check_state_eq]
  split_ifs
  · exact windowVolume_cleanup_le t w now u
  · exact Nat.le_refl _

theorem check_true_hour_volume (now : ℚ) (u : UserData) (c : Nat)
    (h : (check_rate_limits now u c).1.1 = true) :
    windowVolume now 3600 ((check_rate_limits now u c).2) + c
      ≤ total_size_per_hour := by
  simp only [check_rate_limits] at h ⊢
  split_ifs at h ⊢ with h1 h2 h3 h4 h5 h6 <;> simp at h ⊢ <;> omega

theorem windowVolume_record (t' w : ℚ) (u : UserData) (s : Nat) (hw : 0 < w) :
    windowVolume t' w (record_upload t' u s) = windowVolume t' w u + s := by
  unfold windowVolume record_upload
  rw [List.filter_append]
  have hp : (decide ((t' : ℚ) - w < t')) = true := by
    simp only [decide_eq_true_eq]
    linarith
  simp only [List.filter_cons, List.filter_nil, hp, if_true, List.map_append,
    List.map_cons, List.map_nil, List.sum_append, List.sum_cons, List.sum_nil]
  omega

/-- C6: for every reachable state of one user's rate-limit record — where
every admitted upload passed `_check_rate_limits` with a candidate size at
least as large as the size later recorded — the byte volume recorded
within the trailing 3600 seconds never exceeds `total_size_per_hour`. -/
theorem c6_hour_volume_never_exceeds_limit (now : ℚ) (u : UserData)
    (h : RLReach now u) :
    windowVolume now 3600 u ≤ total_size_per_hour := by
  induction h with
  | init t => simp [windowVolume, initUser, total_size_per_hour]
  | tick t' hle _ ih => exact le_trans (windowVolume_mono 3600 _ hle) ih
  | checkOnly c _ ih =>
    exact le_trans (windowVolume_check_state_le _ _ c _ _) ih
  | upload c s t' hle hsc hchk _ ih =>
    rw [windowVolume_record _ _ _ _ (by norm_num)]
    calc windowVolume t' 3600 (check_rate_limits _ _ c).2 + s
        ≤ windowVolume _ 3600 (check_rate_limits _ _ c).2 + s := by
          exact Nat.add_le_add_right (windowVolume_mono 3600 _ hle) s
      _ ≤ windowVolume _ 3600 (check_rate_limits _ _ c).2 + c :=
          Nat.add_le_add_left hsc _
      _ ≤ total_size_per_hour := check_true_hour_volume _ _ c hchk

theorem c6_hour_volume_never_exceeds_limit_witness :
    windowVolume 0 3600 (initUser 0) ≤ total_size_per_hour :=
  c6_hour_volume_never_exceeds_limit 0 (initUser 0) (RLReach.init 0)

theorem filter_time_all {t win : ℚ} {l : List ℚ} (h : ∀ x ∈ l, t - win < x) :
    l.filter (fun x => decide (x > t - win)) = l :=
  List.filter_eq_self.mpr (fun x hx => by simpa using h x hx)

theorem volume_zeros (pred : ℚ × Nat → Bool) (l : List ℚ) :
    (((l.map (fun x => (x, 0))).filter pred).map Prod.snd).sum = 0 := by
  apply List.sum_eq_zero
  intro n hn
  simp only [List.mem_map] at hn
  obtain ⟨p, hp, rfl⟩ := hn
  obtain ⟨x, hx, rfl⟩ := List.mem_map.mp (List.mem_of_mem_filter hp)
  rfl

theorem check_window_fresh (a t : ℚ) (done : List ℚ)
    (hdone : ∀ x ∈ done, a ≤ x ∧ x < a + 60) (_h1 : a ≤ t) (h2 : t < a + 60) :
    check_rate_limits t ⟨done, done.map (fun x => (x, 0)), a⟩ 0
      = ((if done.length < uploads_per_minute then (true, "")
          else (false, minute_message)),
         ⟨done, done.map (fun x => (x, 0)), a⟩) := by
  have hmin : ∀ x ∈ done, t - 60 < x := fun x hx => by
    have h3 := (hdone x hx).1
    linarith
  have hhour : ∀ x ∈ done, t - 3600 < x := fun x hx => by
    have h3 := (hdone x hx).1
    linarith
  have hday : ∀ x ∈ done, t - 86400 < x := fun x hx => by
    have h3 := (hdone x hx).1
    linarith
  unfold check_rate_limits windowCount windowVolume
  dsimp only
  rw [if_neg (by linarith : ¬ t - a > 300)]
  rw [filter_time_all hmin, filter_time_all hhour, filter_time_all hday]
  rw [volume_zeros, volume_zeros]
  simp only [uploads_per_minute, uploads_per_hour, uploads_per_day,
    total_size_per_hour, total_size_per_day]
  by_cases hn : done.length < 10
  · rw [if_neg (by omega), if_neg (by omega), if_neg (by omega),
        if_neg (by norm_num), if_neg (by norm_num), if_pos hn]
  · rw [if_pos (by omega), if_neg hn]

theorem run_uploads_append (s : Nat) (l1 l2 : List ℚ) (u : UserData) :
    run_uploads s (l1 ++ l2) u
      = ((run_uploads s l2 (run_uploads s l1 u).1).1,
         (run_uploads s l1 u).2 ++ (run_uploads s l2 (run_uploads s l1 u).1).2) := by
  induction l1 generalizing u with
  | nil => simp [run_uploads]
  | cons t rest ih => simp [run_uploads, ih]

theorem map_pair_append (done : List ℚ) (t : ℚ) :
    done.map (fun x => (x, (0 : Nat))) ++ [(t, 0)]
      = (done ++ [t]).map (fun x => (x, 0)) := by
  simp

theorem run_uploads_all_admitted (a : ℚ) (ts : List ℚ) (done : List ℚ)
    (hdone : ∀ x ∈ done, a ≤ x ∧ x < a + 60)
    (hts : ∀ x ∈ ts, a ≤ x ∧ x < a + 60)
    (hlen : done.length + ts.length ≤ 10) :
    run_uploads 0 ts ⟨done, done.map (fun x => (x, 0)), a⟩
      = (⟨done ++ ts, (done ++ ts).map (fun x => (x, 0)), a⟩,
         List.replicate ts.length (true, "")) := by
  induction ts generalizing done with
  | nil => simp [run_uploads]
  | cons t rest ih =>
    have hmem : a ≤ t ∧ t < a + 60 := hts t (by simp)
    have hck := check_window_fresh a t done hdone hmem.1 hmem.2
    have hn : done.length < uploads_per_minute := by
      simp only [uploads_per_minute]
      simp only [List.length_cons] at hlen
      omega
    rw [if_pos hn] at hck
    simp only [run_uploads]
    rw [hck]
    simp only [record_upload]
    rw [map_pair_append]
    simp only [if_true]
    rw [ih (done ++ [t])
      (by intro x hx
          rcases List.mem_append.mp hx with hx | hx
          · exact hdone x hx
          · simp at hx; subst hx; exact hmem)
      (by intro x hx; exact hts x (by simp [hx]))
      (by simp at hlen ⊢; omega)]
    simp [List.replicate_succ]

theorem run_uploads_all_rejected (a : ℚ) (ts : List ℚ) (done : List ℚ)
    (hdone : ∀ x ∈ done, a ≤ x ∧ x < a + 60)
    (hts : ∀ x ∈ ts, a ≤ x ∧ x < a + 60)
    (hlen : 10 ≤ done.length) :
    run_uploads 0 ts ⟨done, done.map (fun x => (x, 0)), a⟩
      = (⟨done, done.map (fun x => (x, 0)), a⟩,
         List.replicate ts.length (false, minute_message)) := by
  induction ts with
  | nil => simp [run_uploads]
  | cons t rest ih =>
    have hmem : a ≤ t ∧ t < a + 60 := hts t (by simp)
    have hck := check_window_fresh a t done hdone hmem.1 hmem.2
    rw [if_neg (by simp only [uploads_per_minute]; omega)] at hck
    simp only [run_uploads]
    rw [hck]
    simp only [if_neg Bool.false_ne_true]
    rw [ih (by intro x hx; exact hts x (by simp [hx]))]
    simp [List.replicate_succ]

/-- C5: with `uploads_per_minute = 10`, starting from a fresh rate-limit
record, any sequence of 11 check-then-record upload attempts whose times
all lie within one rolling 60-second window admits exactly the first 10
(check passes, upload recorded) and rejects the 11th check with the
per-minute reason (`Upload rate limit exceeded: 10 uploads per minute`). -/
theorem c5_minute_window_admits_exactly_ten (a : ℚ) (ts : List ℚ) (hlen : ts.length = 11)
    (hts : ∀ x ∈ ts, a ≤ x ∧ x < a + 60) :
    (run_uploads 0 ts (initUser a)).2
      = List.replicate 10 (true, "") ++ [(false, minute_message)] := by
  have hsplit := (List.take_append_drop 10 ts).symm
  have hlen1 : (ts.take 10).length = 10 := by simp [List.length_take, hlen]
  have hlen2 : (ts.drop 10).length = 1 := by simp [List.length_drop, hlen]
  have hts1 : ∀ x ∈ ts.take 10, a ≤ x ∧ x < a + 60 :=
    fun x hx => hts x (List.mem_of_mem_take hx)
  have hts2 : ∀ x ∈ ts.drop 10, a ≤ x ∧ x < a + 60 :=
    fun x hx => hts x (List.mem_of_mem_drop hx)
  have hinit : initUser a = ⟨[], List.map (fun x => (x, 0)) [], a⟩ := rfl
  rw [hsplit, hinit, run_uploads_append]
  rw [run_uploads_all_admitted a (ts.take 10) [] (by simp) hts1 (by simp [hlen1])]
  simp only [List.nil_append]
  rw [run_uploads_all_rejected a (ts.drop 10) (ts.take 10)
    (by simpa using hts1) hts2 (by simp [hlen1])]
  simp [hlen1, hlen2]

theorem c5_minute_window_admits_exactly_ten_witness :
    (run_uploads 0 (List.replicate 11 (0 : ℚ)) (initUser 0)).2
      = List.replicate 10 (true, "") ++ [(false, minute_message)] :=
  c5_minute_window_admits_exactly_ten 0 (List.replicate 11 0) (by rfl)
    (by
      intro x hx
      rw [List.eq_of_mem_replicate hx]
      norm_num)
